import Mathlib

/-!
Verification development for the region-based centroiding engine of
`sbpy_ginga/astrometry.py` (classes `CenteringRegion`, `AstrometricReport`
and the plugin-level helpers `move_region_peak` / `recenter_region`).

The Python source is shallowly embedded: every stateful method becomes an
explicit function on a state record, fallible operations return
`Except PyError`, and IEEE floats are modelled by `EFloat` (a rational
payload extended with infinities and NaN; only comparisons, finiteness
tests and integer shifts of floats occur in the embedded code, all of
which are exact on this carrier).

External collaborators that are not part of the repository (the ginga
canvas shapes and cutout service, numpy's masked `argmax` and indexing,
photutils' `centroid_2dg`, astropy's `Table`) are modelled from the
specification's description of their interfaces; each such definition
carries a doc comment starting with `Modelled from the spec:`.
-/

attribute [local semireducible] Rat.add Rat.sub Rat.mul Rat.inv

deriving instance DecidableEq for Except

set_option maxRecDepth 4000

/-- Errors raised by the embedded Python code.  `outOfBounds` stands for the
source's `RegionImageBoundsError`; the others stand for the built-in
Python/numpy exception classes of the same names. -/
inductive PyError where
  | outOfBounds
  | indexError
  | valueError
  | runtimeError
  | keyError
deriving DecidableEq

/-- An IEEE-style scalar: a finite value (carried exactly as a rational),
one of the two infinities, or NaN.  The embedded code only compares floats,
tests finiteness, and adds integers to them, so this carrier is exact. -/
inductive EFloat where
  | fin (q : ℚ)
  | pinf
  | ninf
  | nan
deriving DecidableEq

/-- `np.isfinite`: true exactly on finite values. -/
def EFloat.isFinite : EFloat → Bool
  | .fin _ => true
  | _ => false

/-- IEEE `<` against an integer (NaN compares false to everything). -/
def EFloat.ltInt : EFloat → ℤ → Bool
  | .fin q, n => decide (q < (n : ℚ))
  | .ninf, _ => true
  | .pinf, _ => false
  | .nan, _ => false

/-- IEEE `>` against an integer (NaN compares false to everything). -/
def EFloat.gtInt : EFloat → ℤ → Bool
  | .fin q, n => decide ((n : ℚ) < q)
  | .pinf, _ => true
  | .ninf, _ => false
  | .nan, _ => false

/-- The rational payload of a finite value (junk `0` on non-finite input;
every use site is guarded by a finiteness check). -/
def EFloat.toRat : EFloat → ℚ
  | .fin q => q
  | _ => 0

/-- Float `+` integer, as used by `x += x1` in `centroid`. -/
def EFloat.addInt : EFloat → ℤ → EFloat
  | .fin q, n => .fin (q + n)
  | .pinf, _ => .pinf
  | .ninf, _ => .ninf
  | .nan, _ => .nan

/-- Python's built-in `round` to an integer: round half to even. -/
def pyRound (q : ℚ) : ℤ :=
  let f := ⌊q⌋
  let r := q - f
  if r < 1 / 2 then f
  else if 1 / 2 < r then f + 1
  else if f % 2 = 0 then f else f + 1

/-- Python `//` (floor division) on exact scalars. -/
def pyFloorDiv (a b : ℚ) : ℚ := ⌊a / b⌋

/-- Modelled from the spec: the external ginga box canvas object
(`canvas.get_draw_class("box")`), the only shape kind the embedded claims
exercise.  It exposes a center `(x, y)` and half-sizes
`(xradius, yradius)`; per the spec's §3 data model a shape exposes a
center point and a bounding box. -/
structure Shape where
  x : ℚ
  y : ℚ
  xradius : ℚ
  yradius : ℚ

/-- Modelled from the spec: `shape.get_center_pt()` of the external canvas
object. -/
def Shape.get_center_pt (s : Shape) : ℚ × ℚ := (s.x, s.y)

/-- Modelled from the spec: `shape.move_to_pt((x, y))` of the external
canvas object — moves the shape's center, keeping its size. -/
def Shape.move_to_pt (s : Shape) (x y : ℚ) : Shape :=
  { s with x := x, y := y }

/-- Modelled from the spec: `shape.get_llur()` of the external canvas
object, the raw (unrounded) bounding box.  The upper-right corner is
exclusive — `(x - xr, y - yr, x + xr + 1, y + yr + 1)` — which realizes
both spec §3's cutout invariant `cutout shape == (y2 - y1, x2 - x1)` and
spec §8's scenario in which a 7×7 box at (100.0, 100.0) has rounded
bounding box (97, 97, 104, 104). -/
def Shape.get_llur (s : Shape) : ℚ × ℚ × ℚ × ℚ :=
  (s.x - s.xradius, s.y - s.yradius, s.x + s.xradius + 1, s.y + s.yradius + 1)

/-- The shape's bounding box rounded to the nearest pixel, as in
`CenteringRegion.get_llur`: `[int(round(x)) for x in self.shape.get_llur()]`.
The source notes this matches the image corner calculation of
`ginga.util.vip.ViewerImageProxy.get_shape_view`. -/
def roundedLlur (s : Shape) : ℤ × ℤ × ℤ × ℤ :=
  (pyRound (s.get_llur.1), pyRound (s.get_llur.2.1),
   pyRound (s.get_llur.2.2.1), pyRound (s.get_llur.2.2.2))

/-- A 2D image data source: pixel values on an integer grid with a valid
data extent `[0, width) × [0, height)`. -/
structure ImageData where
  width : ℕ
  height : ℕ
  pixel : ℤ → ℤ → ℚ

/-- A masked cutout: `h × w` samples (row-major, `data row col`) plus an
element-wise validity mask (`mask row col = true` means the element is
masked/invalid and excluded from statistics). -/
structure Cutout where
  h : ℕ
  w : ℕ
  data : ℕ → ℕ → ℚ
  mask : ℕ → ℕ → Bool

/-- The number of elements (`self.data.size`). -/
def Cutout.size (c : Cutout) : ℕ := c.h * c.w

/-- True when the rounded bounding box `[x1, x2) × [y1, y2)` lies entirely
outside the image's valid data extent. -/
def bboxOutsideExtent (img : ImageData) (x1 y1 x2 y2 : ℤ) : Bool :=
  decide (x2 ≤ 0) || decide ((img.width : ℤ) ≤ x1) ||
  decide (y2 ≤ 0) || decide ((img.height : ℤ) ≤ y1)

/-- Modelled from the spec: the external canvas data-cutout service
`image.cutout_shape(shape)` (spec §4.1 `BoundedCutout.extract`): the
image's masked data restricted to the shape's rounded bounding box, of
shape `(y2 - y1, x2 - x1)`; pixels outside the image's valid extent are
masked; a bounding box entirely outside the valid extent yields a
zero-size cutout rather than failing.  A box footprint needs no masking
beyond the bounding box (spec §4.1). -/
def cutout_shape (img : ImageData) (sh : Shape) : Cutout :=
  let l := roundedLlur sh
  if bboxOutsideExtent img l.1 l.2.1 l.2.2.1 l.2.2.2 then
    ⟨0, 0, fun _ _ => 0, fun _ _ => false⟩
  else
    ⟨(l.2.2.2 - l.2.1).toNat, (l.2.2.1 - l.1).toNat,
     fun iy ix => img.pixel (l.1 + ix) (l.2.1 + iy),
     fun iy ix =>
       !(decide (0 ≤ l.1 + (ix : ℤ)) && decide (l.1 + (ix : ℤ) < (img.width : ℤ)) &&
         decide (0 ≤ l.2.1 + (iy : ℤ)) && decide (l.2.1 + (iy : ℤ) < (img.height : ℤ)))⟩

/-- The peak marker (a ginga `Point` canvas object): a position and an
opacity (`alpha = 0` is transparent/hidden, `alpha = 1` visible). -/
structure PeakPoint where
  x : EFloat
  y : EFloat
  alpha : ℚ

/-- The state of one `CenteringRegion`: the shape reference, the stored
masked cutout (`self.data`), and the peak marker.  The canvas, text label
and image view are pure GUI wiring with no bearing on the claims. -/
structure CenteringRegion where
  shape : Shape
  data : Cutout
  peak : PeakPoint

namespace CenteringRegion

/-- `get_llur`: the shape's bounding box rounded to the nearest pixel. -/
def get_llur (r : CenteringRegion) : ℤ × ℤ × ℤ × ℤ := roundedLlur r.shape

/-- `get_center`: the region shape's center. -/
def get_center (r : CenteringRegion) : ℚ × ℚ := r.shape.get_center_pt

/-- `get_center_point`: the peak marker's coordinates. -/
def get_center_point (r : CenteringRegion) : EFloat × EFloat := (r.peak.x, r.peak.y)

/-- `get_image_data`: a cutout of the image data, masked by the region
shape (delegates to the external cutout service). -/
def get_image_data (img : ImageData) (r : CenteringRegion) : Cutout :=
  cutout_shape img r.shape

/-- `update_image_data`: refresh the internal copy of the image data. -/
def update_image_data (img : ImageData) (r : CenteringRegion) : CenteringRegion :=
  { r with data := get_image_data img r }

/-- `set_center`: move the shape to a new center, then re-extract the
cutout (`update_image_data`).  The canvas redraw is a GUI no-op here. -/
def set_center (img : ImageData) (r : CenteringRegion) (x y : ℚ) : CenteringRegion :=
  update_image_data img { r with shape := r.shape.move_to_pt x y }

/-- The `invalid_coordinates` test of `set_center_point` and
`get_center_point_value`:
`any([x < x1, x > x2, y < y1, y > y2, ~np.isfinite(x), ~np.isfinite(y)])`. -/
def invalidCoordinates (x y : EFloat) (x1 y1 x2 y2 : ℤ) : Bool :=
  x.ltInt x1 || x.gtInt x2 || y.ltInt y1 || y.gtInt y2 || !x.isFinite || !y.isFinite

/-- `set_center_point`: validate `(x, y)` against the current rounded
bounding box and finiteness.  On violation the peak marker is moved to the
region center, made transparent, and `RegionImageBoundsError` is raised;
on success the marker becomes visible and is placed exactly at `(x, y)`. -/
def set_center_point (r : CenteringRegion) (x y : EFloat) :
    CenteringRegion × Except PyError Unit :=
  if invalidCoordinates x y r.get_llur.1 r.get_llur.2.1 r.get_llur.2.2.1 r.get_llur.2.2.2 then
    ({ r with peak := ⟨.fin r.get_center.1, .fin r.get_center.2, 0⟩ }, .error .outOfBounds)
  else
    ({ r with peak := ⟨x, y, 1⟩ }, .ok ())

end CenteringRegion

/-- Numpy integer indexing into one axis of length `n`: indices in
`[0, n)` are used directly, indices in `[-n, 0)` wrap around, anything
else raises `IndexError`. -/
def npIdx (i : ℤ) (n : ℕ) : Option ℕ :=
  if 0 ≤ i ∧ i < (n : ℤ) then some i.toNat
  else if -(n : ℤ) ≤ i ∧ i < 0 then some ((n : ℤ) + i).toNat
  else none

/-- `self.data[y, x]`: bounds-checked 2D element read (`IndexError` on an
out-of-range index).  The element's stored value is returned; the
mask-aware float conversion subtleties of `numpy.ma` scalars are not
relevant to any claim. -/
def npGet2 (c : Cutout) (iy ix : ℤ) : Except PyError ℚ :=
  match npIdx iy c.h, npIdx ix c.w with
  | some i, some j => .ok (c.data i j)
  | _, _ => .error .indexError

/-- The effective value of flattened element `k` of a masked cutout for
maximum-finding: masked elements are treated as smaller than every
unmasked value (numpy's `MaskedArray.argmax` fills masked entries with the
minimum representable value), encoded as `none`. -/
def Cutout.eff (c : Cutout) (k : ℕ) : Option ℚ :=
  if c.mask (k / c.w) (k % c.w) then none else some (c.data (k / c.w) (k % c.w))

/-- Strict `<` on effective values: `none` (masked) is below every
unmasked value; two masked elements are not ordered. -/
def effLt : Option ℚ → Option ℚ → Bool
  | none, some _ => true
  | some a, some b => decide (a < b)
  | _, none => false

/-- First-occurrence argmax over `v 0, …, v (n-1)`: the running best is
replaced only on strict improvement, so ties keep the earliest index —
numpy's `argmax` tie-breaking in row-major (C) scan order. -/
def maArgmax (v : ℕ → Option ℚ) : ℕ → ℕ
  | 0 => 0
  | n + 1 => if effLt (v (maArgmax v n)) (v n) then n else maArgmax v n

/-- `self.data.argmax()` on a masked array: `ValueError` on an empty
array, otherwise the flattened index of the first maximum among unmasked
entries (all-masked arrays yield index 0, as with numpy's fill). -/
def maskedArgmax (c : Cutout) : Except PyError ℕ :=
  if c.size = 0 then .error .valueError
  else .ok (maArgmax c.eff c.size)

namespace CenteringRegion

/-- `get_center_point_value`: the image value at the center pixel.
Returns 0 for a zero-size cutout; re-validates the peak marker against
the shape's current rounded bounding box (raising
`RegionImageBoundsError`), then reads the stored cutout at the rounded
offset from the box's lower-left corner. -/
def get_center_point_value (r : CenteringRegion) : Except PyError ℚ :=
  if r.data.size = 0 then .ok 0
  else if invalidCoordinates r.peak.x r.peak.y
      r.get_llur.1 r.get_llur.2.1 r.get_llur.2.2.1 r.get_llur.2.2.2 then
    .error .outOfBounds
  else
    npGet2 r.data (pyRound (r.peak.y.toRat - r.get_llur.2.1))
      (pyRound (r.peak.x.toRat - r.get_llur.1))

/-- `centroid`: compute a candidate center by the selected method without
moving the peak marker.  `"none"` returns the current peak marker
position; `"peak"` unravels the masked argmax of the stored cutout and
offsets it by the bounding box's lower-left corner; `"2D Gaussian"`
delegates to the external fit `fit` (photutils `centroid_2dg`, passed as
a parameter known only through its spec contract) and offsets its result;
any other method name raises `RuntimeError`.  The return value pairs the
result with the (unchanged) region state. -/
def centroid (fit : Cutout → EFloat × EFloat) (r : CenteringRegion) (method : String) :
    Except PyError (EFloat × EFloat) × CenteringRegion :=
  if method = "none" then
    (.ok (r.peak.x, r.peak.y), r)
  else if method = "peak" then
    match maskedArgmax r.data with
    | .error e => (.error e, r)
    | .ok k =>
        (.ok (.fin ((r.get_llur.1 : ℚ) + (k % r.data.w : ℕ)),
              .fin ((r.get_llur.2.1 : ℚ) + (k / r.data.w : ℕ))), r)
  else if method = "2D Gaussian" then
    (.ok ((fit r.data).1.addInt r.get_llur.1, (fit r.data).2.addInt r.get_llur.2.1), r)
  else
    (.error .runtimeError, r)

/-- Class attributes `region_default_width` / `region_default_height`. -/
def region_default_width : ℚ := 7

/-- Default region height (see `region_default_width`). -/
def region_default_height : ℚ := 7

/-- The `CenteringRegion` constructor: the peak marker `Point` is placed
at the shape's center (visible, `alpha = 1`) and the initial cutout is
extracted (`update_image_data`). -/
def mk_region (img : ImageData) (sh : Shape) : CenteringRegion :=
  update_image_data img
    { shape := sh,
      data := ⟨0, 0, fun _ _ => 0, fun _ _ => false⟩,
      peak := ⟨.fin sh.get_center_pt.1, .fin sh.get_center_pt.2, 1⟩ }

/-- `at_location`: create a box region at `(x, y)` with the given
dimensions — the box's radii are `width // 2` and `height // 2`. -/
def at_location (img : ImageData) (x y width height : ℚ) : CenteringRegion :=
  mk_region img ⟨x, y, pyFloorDiv width 2, pyFloorDiv height 2⟩

end CenteringRegion

/-- Modelled from the spec: §4.2's degeneracy condition for the Gaussian
fit — the cutout is degenerate when it is zero-size, all-masked, or flat
(all unmasked samples equal). -/
def Cutout.degenerate (c : Cutout) : Bool :=
  decide (c.size = 0) ||
  (List.range c.size).all (fun k => c.mask (k / c.w) (k % c.w)) ||
  (List.range c.size).all (fun k =>
    c.mask (k / c.w) (k % c.w) ||
    (List.range c.size).all (fun k2 =>
      c.mask (k2 / c.w) (k2 % c.w) ||
      decide (c.data (k / c.w) (k % c.w) = c.data (k2 / c.w) (k2 % c.w))))

/-- The plugin-level display state touched by `Astrometry.move_region_peak`:
the active region, the derived display fields (`None` after clearing),
and counters for `show_error` messages shown to the user and sky-transform
warnings logged. -/
structure AstrometryState where
  region : CenteringRegion
  center_x : Option EFloat
  center_y : Option EFloat
  center_value : Option ℚ
  center_ra : Option ℚ
  center_dec : Option ℚ
  errors_shown : ℕ
  warnings_logged : ℕ

namespace Astrometry

/-- `Astrometry.move_region_peak`: commit `(x, y)` as the peak marker.
A `RegionImageBoundsError` from `set_center_point` is caught: the display
fields are cleared, an error message is shown, and the call returns.
Otherwise the fields are set; the cutout read (`get_center_point_value`)
is outside the `try` block, so its exceptions propagate.  The sky
transform `pixToSky` (the external `image.pixtoradec`) is attempted under
its own handler: on failure the sky fields are cleared and a warning is
logged. -/
def move_region_peak (pixToSky : EFloat → EFloat → Except Unit (ℚ × ℚ))
    (s : AstrometryState) (x y : EFloat) : Except PyError AstrometryState :=
  match CenteringRegion.set_center_point s.region x y with
  | (r', .error _) =>
      .ok { s with region := r', center_x := none, center_y := none,
                   center_value := none, center_ra := none, center_dec := none,
                   errors_shown := s.errors_shown + 1 }
  | (r', .ok _) =>
      match CenteringRegion.get_center_point_value r' with
      | .error e => .error e
      | .ok v =>
          match pixToSky x y with
          | .ok rd =>
              .ok { s with region := r', center_x := some x, center_y := some y,
                           center_value := some v,
                           center_ra := some rd.1, center_dec := some rd.2 }
          | .error _ =>
              .ok { s with region := r', center_x := some x, center_y := some y,
                           center_value := some v, center_ra := none, center_dec := none,
                           warnings_logged := s.warnings_logged + 1 }

/-- `Astrometry.recenter_region`: compute the centroid with the selected
method and commit it via `move_region_peak`.  Exceptions from `centroid`
(including any fit failure) are not caught here and propagate. -/
def recenter_region (fit : Cutout → EFloat × EFloat)
    (pixToSky : EFloat → EFloat → Except Unit (ℚ × ℚ))
    (s : AstrometryState) (method : String) : Except PyError AstrometryState :=
  match CenteringRegion.centroid fit s.region method with
  | (.error e, _) => .error e
  | (.ok xy, _) => move_region_peak pixToSky s xy.1 xy.2

end Astrometry

/-- Lookup in a Python-dict model (an association list with unique keys,
first match returned). -/
def dlookup {α : Type} (k : String) : List (String × α) → Option α
  | [] => none
  | p :: t => if p.1 = k then some p.2 else dlookup k t

/-- The key sequence of a dict model. -/
def dictKeys {α : Type} (d : List (String × α)) : List String := d.map Prod.fst

/-- A single CPython `d[k] = v` store: an existing key is overwritten in
place (its position preserved), a fresh key is appended. -/
def dictInsert {α : Type} (d : List (String × α)) (k : String) (v : α) :
    List (String × α) :=
  if (dlookup k d).isSome then
    d.map (fun p => if p.1 = k then (k, v) else p)
  else
    d ++ [(k, v)]

/-- `dict.update(results)`: store every entry of `results` in order. -/
def dictUpdate {α : Type} (d results : List (String × α)) : List (String × α) :=
  results.foldl (fun acc p => dictInsert acc p.1 p.2) d

/-- One report row: a record of string-keyed fields (`channel`, `name`,
`target`, `date`, `location`, `x`, `y`, `ra`, `dec`), values already
formatted to strings by the caller. -/
abbrev ReportRow : Type := List (String × String)

/-- The serialized output of a successful `AstrometricReport.save`: the
rows, the declared ra/dec units, and the creator metadata. -/
structure SavedTable where
  rows : List ReportRow
  raUnit : String
  decUnit : String
  creator : String

namespace AstrometricReport

/-- `AstrometricReport.update(results)`: merge `results` into the internal
table with `dict.update` semantics (key collision = overwrite).  The tree
view refresh is a GUI no-op here. -/
def update (report results : List (String × ReportRow)) : List (String × ReportRow) :=
  dictUpdate report results

/-- Modelled from the spec: astropy `Table([rows])` column access — a
column exists only if there is at least one row carrying its key (an
empty table has no columns, so `tab["ra"]` raises `KeyError`). -/
def tableHasColumn (rows : List ReportRow) (k : String) : Bool :=
  match rows with
  | [] => false
  | r0 :: _ => (dlookup k r0).isSome

/-- `AstrometricReport.save`: build a table from the current rows, set the
`ra`/`dec` column units (raising `KeyError` when the column is missing —
in particular on an empty table, before anything is written), attach the
creator metadata, and write the table. -/
def save (report : List (String × ReportRow)) : Except PyError SavedTable :=
  let rows := report.map Prod.snd
  if tableHasColumn rows "ra" then
    if tableHasColumn rows "dec" then
      .ok ⟨rows, "deg", "deg", "sbpy-ginga Astrometry tool"⟩
    else .error .keyError
  else .error .keyError

end AstrometricReport

/-- A fit function standing for a failed/degenerate Gaussian fit: it
reports a non-finite center for every cutout.  It satisfies the spec
contract for `centroid_2dg` on degenerate cutouts. -/
def nanFit : Cutout → EFloat × EFloat := fun _ => (.nan, .nan)

/-- A sky transform that always fails (no astrometric solution). -/
def skyFail : EFloat → EFloat → Except Unit (ℚ × ℚ) := fun _ _ => .error ()

/-- A 200×200 test image whose only bright pixel (value 10) is at
`(99, 98)`; every other pixel is 0. -/
def img0 : ImageData :=
  ⟨200, 200, fun x y => if x = 99 ∧ y = 98 then 10 else 0⟩

/-- The spec §8 scenario region: a box region created by `at_location` at
`(100.0, 100.0)` with the default 7×7 size, over `img0`. -/
def rBox : CenteringRegion :=
  CenteringRegion.at_location img0 100 100
    CenteringRegion.region_default_width CenteringRegion.region_default_height

/-- A region whose rounded bounding box is `(10, 20, 15, 25)` and whose
5×5 unmasked cutout has its single maximal sample (9) at relative offset
`(x, y) = (3, 4)` — the concrete instance named by claim C2. -/
def rC2ex : CenteringRegion :=
  { shape := ⟨12, 22, 2, 2⟩,
    data := ⟨5, 5, fun iy ix => if iy = 4 ∧ ix = 3 then 9 else 0, fun _ _ => false⟩,
    peak := ⟨.fin 12, .fin 22, 1⟩ }

/-- A region over the same 7×7 box as `rBox` whose stored cutout is all
zero (flat, hence degenerate for the Gaussian fit), with the peak marker
previously validated at `(99, 99)`. -/
def rZero : CenteringRegion :=
  { shape := ⟨100, 100, 3, 3⟩,
    data := ⟨7, 7, fun _ _ => 0, fun _ _ => false⟩,
    peak := ⟨.fin 99, .fin 99, 1⟩ }

/-- A region with a zero-size stored cutout. -/
def rEmpty : CenteringRegion :=
  { shape := ⟨0, 0, 0, 0⟩,
    data := ⟨0, 0, fun _ _ => 0, fun _ _ => false⟩,
    peak := ⟨.fin 0, .fin 0, 1⟩ }

/-- Plugin display state around `rZero`, with no messages shown yet. -/
def sZero : AstrometryState :=
  ⟨rZero, none, none, none, none, none, 0, 0⟩

/-- The flattened index selected by `maskedArgmax` on the stored cutout. -/
def peakIndex (r : CenteringRegion) : ℕ := maArgmax r.data.eff r.data.size

theorem effLt_irrefl (a : Option ℚ) : effLt a a = false := by
  cases a <;> simp [effLt]

theorem effLt_false_trans {a b c : Option ℚ}
    (h1 : effLt b a = false) (h2 : effLt b c = true) : effLt c a = false := by
  cases a <;> cases b <;> cases c <;> simp_all [effLt] <;> linarith

theorem effLt_true_trans {a b c : Option ℚ}
    (h1 : effLt b a = false) (h2 : effLt b c = true) : effLt a c = true := by
  cases a <;> cases b <;> cases c <;> simp_all [effLt] <;> linarith

theorem maArgmax_lt (v : ℕ → Option ℚ) : ∀ n, 0 < n → maArgmax v n < n := by
  intro n
  induction n with
  | zero => omega
  | succ m ih =>
      intro _
      unfold maArgmax
      split
      · exact Nat.lt_succ_self m
      · rcases Nat.eq_zero_or_pos m with hm | hm
        · subst hm
          simp [maArgmax]
        · exact Nat.lt_succ_of_lt (ih hm)

theorem maArgmax_le (v : ℕ → Option ℚ) :
    ∀ n, ∀ i, i < n → effLt (v (maArgmax v n)) (v i) = false := by
  intro n
  induction n with
  | zero => omega
  | succ m ih =>
      intro i hi
      unfold maArgmax
      split
      · rename_i hc
        rcases Nat.lt_succ_iff_lt_or_eq.mp hi with hi' | hi'
        · exact effLt_false_trans (ih i hi') hc
        · subst hi'
          exact effLt_irrefl (v i)
      · rename_i hc
        rcases Nat.lt_succ_iff_lt_or_eq.mp hi with hi' | hi'
        · exact ih i hi'
        · subst hi'
          exact Bool.eq_false_iff.mpr hc

theorem maArgmax_first (v : ℕ → Option ℚ) :
    ∀ n, ∀ j, j < maArgmax v n → effLt (v j) (v (maArgmax v n)) = true := by
  intro n
  induction n with
  | zero =>
      intro j hj
      simp [maArgmax] at hj
  | succ m ih =>
      intro j hj
      unfold maArgmax at hj ⊢
      split
      · rename_i hc
        split at hj
        · exact effLt_true_trans (maArgmax_le v m j hj) hc
        · rename_i hc'
          exact absurd hc hc'
      · rename_i hc
        split at hj
        · rename_i hc'
          exact absurd hc' hc
        · exact ih j hj

theorem flat_div {i j w : ℕ} (hj : j < w) : (i * w + j) / w = i := by
  rw [mul_comm, Nat.mul_add_div (by omega), Nat.div_eq_of_lt hj]
  omega

theorem flat_mod {i j w : ℕ} (hj : j < w) : (i * w + j) % w = j := by
  rw [mul_comm, Nat.mul_add_mod, Nat.mod_eq_of_lt hj]

theorem flat_lt {i j h w : ℕ} (hi : i < h) (hj : j < w) : i * w + j < h * w :=
  calc i * w + j < (i + 1) * w := by nlinarith
    _ ≤ h * w := Nat.mul_le_mul_right w hi

theorem eff_of_unmasked {c : Cutout} {i j : ℕ} (hj : j < c.w) (hm : c.mask i j = false) :
    c.eff (i * c.w + j) = some (c.data i j) := by
  unfold Cutout.eff
  rw [flat_div hj, flat_mod hj, hm]
  simp

/-- C2: for every region with a non-empty cutout holding at least one
unmasked entry, `centroid("peak")` returns the coordinate of the first
(row-major) maximum among the unmasked cutout entries, offset by the
bounding box origin `(x1, y1)`; the result lies within
`[x1, x1 + w) × [y1, y1 + h)`; and on the concrete cutout `rC2ex` (single
maximal pixel at relative offset (3, 4), origin (10, 20)) it returns
(13, 24). -/
theorem centroid_peak_spec (fit : Cutout → EFloat × EFloat) (r : CenteringRegion)
    (i j : ℕ) (hi : i < r.data.h) (hj : j < r.data.w) (hm : r.data.mask i j = false) :
    ((CenteringRegion.centroid fit r "peak").1
        = .ok (.fin ((r.get_llur.1 : ℚ) + (peakIndex r % r.data.w : ℕ)),
               .fin ((r.get_llur.2.1 : ℚ) + (peakIndex r / r.data.w : ℕ))) ∧
      peakIndex r % r.data.w < r.data.w ∧
      peakIndex r / r.data.w < r.data.h ∧
      r.data.mask (peakIndex r / r.data.w) (peakIndex r % r.data.w) = false ∧
      (∀ a b, a < r.data.h → b < r.data.w → r.data.mask a b = false →
        r.data.data a b ≤ r.data.data (peakIndex r / r.data.w) (peakIndex r % r.data.w)) ∧
      (∀ k, k < peakIndex r → effLt (r.data.eff k) (r.data.eff (peakIndex r)) = true)) ∧
    (CenteringRegion.centroid fit rC2ex "peak").1 = .ok (.fin 13, .fin 24) := by
  have hw : 0 < r.data.w := Nat.zero_lt_of_lt hj
  have hh : 0 < r.data.h := Nat.zero_lt_of_lt hi
  have hsz : r.data.size ≠ 0 := Nat.ne_of_gt (Nat.mul_pos hh hw)
  have hargmax : maskedArgmax r.data = .ok (peakIndex r) := by
    unfold maskedArgmax
    rw [if_neg hsz]
    rfl
  have hklt : peakIndex r < r.data.size := maArgmax_lt _ _ (Nat.pos_of_ne_zero hsz)
  have hxr : peakIndex r % r.data.w < r.data.w := Nat.mod_lt _ hw
  have hyr : peakIndex r / r.data.w < r.data.h := by
    have : peakIndex r < r.data.h * r.data.w := hklt
    exact (Nat.div_lt_iff_lt_mul hw).mpr this
  have hle0 : effLt (r.data.eff (peakIndex r)) (r.data.eff (i * r.data.w + j)) = false :=
    maArgmax_le _ _ _ (flat_lt hi hj)
  rw [eff_of_unmasked hj hm] at hle0
  cases hb : r.data.mask (peakIndex r / r.data.w) (peakIndex r % r.data.w) with
  | true =>
      exfalso
      have hek : r.data.eff (peakIndex r) = none := by
        unfold Cutout.eff
        rw [hb]
        simp
      rw [hek] at hle0
      simp [effLt] at hle0
  | false =>
      have hek : r.data.eff (peakIndex r)
          = some (r.data.data (peakIndex r / r.data.w) (peakIndex r % r.data.w)) := by
        unfold Cutout.eff
        rw [hb]
        simp
      refine ⟨⟨?_, hxr, hyr, rfl, ?_, ?_⟩, rfl⟩
      · unfold CenteringRegion.centroid
        rw [if_neg (by decide), if_pos rfl, hargmax]
      · intro a b ha hb' hmab
        have h1 : effLt (r.data.eff (peakIndex r)) (r.data.eff (a * r.data.w + b)) = false :=
          maArgmax_le _ _ _ (flat_lt ha hb')
        rw [hek, eff_of_unmasked hb' hmab] at h1
        simp [effLt] at h1
        exact h1
      · intro k hk
        exact maArgmax_first _ _ _ hk

/-- Witness for C2 at the concrete region `rC2ex` with unmasked entry
(4, 3): the maximum is at flattened index 23, relative offset (3, 4),
absolute coordinate (13, 24). -/
theorem centroid_peak_spec_witness :
    ((CenteringRegion.centroid nanFit rC2ex "peak").1
        = .ok (.fin ((rC2ex.get_llur.1 : ℚ) + (peakIndex rC2ex % rC2ex.data.w : ℕ)),
               .fin ((rC2ex.get_llur.2.1 : ℚ) + (peakIndex rC2ex / rC2ex.data.w : ℕ))) ∧
      peakIndex rC2ex % rC2ex.data.w < rC2ex.data.w ∧
      peakIndex rC2ex / rC2ex.data.w < rC2ex.data.h ∧
      rC2ex.data.mask (peakIndex rC2ex / rC2ex.data.w) (peakIndex rC2ex % rC2ex.data.w) = false ∧
      (∀ a b, a < rC2ex.data.h → b < rC2ex.data.w → rC2ex.data.mask a b = false →
        rC2ex.data.data a b
          ≤ rC2ex.data.data (peakIndex rC2ex / rC2ex.data.w) (peakIndex rC2ex % rC2ex.data.w)) ∧
      (∀ k, k < peakIndex rC2ex →
        effLt (rC2ex.data.eff k) (rC2ex.data.eff (peakIndex rC2ex)) = true)) ∧
    (CenteringRegion.centroid nanFit rC2ex "peak").1 = .ok (.fin 13, .fin 24) :=
  centroid_peak_spec nanFit rC2ex 4 3 (by decide) (by decide) (by decide)

/-- C9: `centroid("peak")` on a region whose stored cutout has zero size
raises (the empty `argmax` is a `ValueError`) instead of returning a
coordinate, so callers need a nonzero-size cutout as a precondition. -/
theorem centroid_peak_empty_raises (fit : Cutout → EFloat × EFloat)
    (r : CenteringRegion) (h : r.data.size = 0) :
    (CenteringRegion.centroid fit r "peak").1 = .error .valueError := by
  unfold CenteringRegion.centroid
  rw [if_neg (by decide), if_pos rfl]
  unfold maskedArgmax
  rw [if_pos h]

/-- Witness for C9 at the concrete region `rEmpty` (0×0 cutout). -/
theorem centroid_peak_empty_raises_witness :
    (CenteringRegion.centroid nanFit rEmpty "peak").1 = .error .valueError :=
  centroid_peak_empty_raises nanFit rEmpty rfl

/-- C6: `centroid` is a pure query — for every method string the region
state is returned unchanged (the peak marker is not moved); in
particular `centroid("none")` returns the current peak marker position,
so repeated calls without moving the region return the same value. -/
theorem centroid_pure_query (fit : Cutout → EFloat × EFloat)
    (r : CenteringRegion) (method : String) :
    (CenteringRegion.centroid fit r method).2 = r ∧
    (CenteringRegion.centroid fit r "none").1 = .ok (r.peak.x, r.peak.y) ∧
    (CenteringRegion.centroid fit ((CenteringRegion.centroid fit r method).2) "none").1
      = (CenteringRegion.centroid fit r "none").1 := by
  have hstate : (CenteringRegion.centroid fit r method).2 = r := by
    unfold CenteringRegion.centroid
    repeat' split
    all_goals rfl
  exact ⟨hstate, rfl, by rw [hstate]⟩

/-- C1 (amended): `set_center_point` with `(x, y)` outside the shape's
current rounded bounding box, or with a non-finite coordinate, always
raises the out-of-bounds error, hides the peak marker (`alpha = 0`), and
moves the peak marker to the region's current center — it is never moved
to the invalid point and the coordinates are never silently clamped. -/
theorem set_center_point_invalid_spec (r : CenteringRegion) (x y : EFloat)
    (h : CenteringRegion.invalidCoordinates x y r.get_llur.1 r.get_llur.2.1
          r.get_llur.2.2.1 r.get_llur.2.2.2 = true) :
    CenteringRegion.set_center_point r x y
      = ({ r with peak := ⟨.fin r.get_center.1, .fin r.get_center.2, 0⟩ },
         .error .outOfBounds) := by
  unfold CenteringRegion.set_center_point
  rw [if_pos h]

/-- Witness for C1's amended theorem: a NaN x-coordinate on `rBox`. -/
theorem set_center_point_invalid_spec_witness :
    CenteringRegion.set_center_point rBox .nan (.fin 50)
      = ({ rBox with peak := ⟨.fin rBox.get_center.1, .fin rBox.get_center.2, 0⟩ },
         .error .outOfBounds) :=
  set_center_point_invalid_spec rBox .nan (.fin 50) (by decide)

/-- Counterexample to C1 as stated: on `rBox` (bounding box
(97, 97, 104, 104), center (100, 100)) the peak marker is first validly
placed at (98, 98); a subsequent `set_center_point(200, 98)` raises the
out-of-bounds error but moves the marker to the region center (100, 100)
rather than leaving it at its last valid position (98, 98). -/
theorem set_center_point_not_last_valid_cex :
    (CenteringRegion.set_center_point rBox (.fin 98) (.fin 98)).2 = .ok () ∧
    (CenteringRegion.set_center_point rBox (.fin 98) (.fin 98)).1.peak.x = .fin 98 ∧
    (CenteringRegion.set_center_point rBox (.fin 98) (.fin 98)).1.peak.y = .fin 98 ∧
    (CenteringRegion.set_center_point
        (CenteringRegion.set_center_point rBox (.fin 98) (.fin 98)).1
        (.fin 200) (.fin 98)).2 = .error .outOfBounds ∧
    (CenteringRegion.set_center_point
        (CenteringRegion.set_center_point rBox (.fin 98) (.fin 98)).1
        (.fin 200) (.fin 98)).1.peak.x = .fin 100 ∧
    (EFloat.fin 100 : EFloat) ≠ .fin 98 := by decide

theorem pyRound_nonneg {q : ℚ} (h : 0 ≤ q) : 0 ≤ pyRound q := by
  have hf : (0 : ℤ) ≤ ⌊q⌋ := Int.floor_nonneg.mpr h
  show 0 ≤ (if q - ⌊q⌋ < 1 / 2 then ⌊q⌋
    else if 1 / 2 < q - ⌊q⌋ then ⌊q⌋ + 1
    else if ⌊q⌋ % 2 = 0 then ⌊q⌋ else ⌊q⌋ + 1)
  split_ifs <;> omega

/-- C3 (amended): `get_center_point_value` returns 0 when the cutout has
zero size; otherwise it re-validates the (unrounded) peak marker position
against the shape's current rounded bounding box `[x1, x2] × [y1, y2]` —
independently of any earlier `set_center_point` validation — and raises
the same out-of-bounds error when that validation fails; when it passes,
the rounded marker offsets are nonnegative and the call returns the
stored cutout sample at the rounded offset when that offset lies within
the cutout, but fails with an `IndexError` (not the out-of-bounds error)
when the rounded offset lies at or beyond the cutout's extent. -/
theorem get_center_point_value_spec (r : CenteringRegion) :
    (r.data.size = 0 → CenteringRegion.get_center_point_value r = .ok 0) ∧
    (r.data.size ≠ 0 →
      CenteringRegion.invalidCoordinates r.peak.x r.peak.y r.get_llur.1 r.get_llur.2.1
        r.get_llur.2.2.1 r.get_llur.2.2.2 = true →
      CenteringRegion.get_center_point_value r = .error .outOfBounds) ∧
    (r.data.size ≠ 0 →
      CenteringRegion.invalidCoordinates r.peak.x r.peak.y r.get_llur.1 r.get_llur.2.1
        r.get_llur.2.2.1 r.get_llur.2.2.2 = false →
      (0 ≤ pyRound (r.peak.x.toRat - r.get_llur.1) ∧
       0 ≤ pyRound (r.peak.y.toRat - r.get_llur.2.1)) ∧
      (pyRound (r.peak.y.toRat - r.get_llur.2.1) < (r.data.h : ℤ) →
        pyRound (r.peak.x.toRat - r.get_llur.1) < (r.data.w : ℤ) →
        CenteringRegion.get_center_point_value r
          = .ok (r.data.data (pyRound (r.peak.y.toRat - r.get_llur.2.1)).toNat
                             (pyRound (r.peak.x.toRat - r.get_llur.1)).toNat)) ∧
      (((r.data.h : ℤ) ≤ pyRound (r.peak.y.toRat - r.get_llur.2.1) ∨
        (r.data.w : ℤ) ≤ pyRound (r.peak.x.toRat - r.get_llur.1)) →
        CenteringRegion.get_center_point_value r = .error .indexError)) := by
  refine ⟨?_, ?_, ?_⟩
  · intro h
    unfold CenteringRegion.get_center_point_value
    rw [if_pos h]
  · intro h hv
    unfold CenteringRegion.get_center_point_value
    rw [if_neg h, if_pos hv]
  · intro h hv
    cases hpx : r.peak.x with
    | pinf => simp [CenteringRegion.invalidCoordinates, EFloat.isFinite, hpx] at hv
    | ninf => simp [CenteringRegion.invalidCoordinates, EFloat.isFinite, hpx] at hv
    | nan => simp [CenteringRegion.invalidCoordinates, EFloat.isFinite, hpx] at hv
    | fin qx =>
    cases hpy : r.peak.y with
    | pinf => simp [CenteringRegion.invalidCoordinates, EFloat.isFinite, hpx, hpy] at hv
    | ninf => simp [CenteringRegion.invalidCoordinates, EFloat.isFinite, hpx, hpy] at hv
    | nan => simp [CenteringRegion.invalidCoordinates, EFloat.isFinite, hpx, hpy] at hv
    | fin qy =>
    rw [hpx, hpy] at hv
    have hvb := hv
    simp only [CenteringRegion.invalidCoordinates, EFloat.ltInt, EFloat.gtInt,
      EFloat.isFinite, Bool.or_eq_false_iff, Bool.not_eq_false',
      decide_eq_false_iff_not] at hv
    obtain ⟨⟨⟨⟨⟨hx1, hx2⟩, hy1⟩, hy2⟩, -⟩, -⟩ := hv
    have hx0 : 0 ≤ pyRound ((EFloat.fin qx).toRat - r.get_llur.1) := by
      apply pyRound_nonneg
      have hle : (r.get_llur.1 : ℚ) ≤ qx := le_of_not_lt hx1
      simp only [EFloat.toRat]
      linarith
    have hy0 : 0 ≤ pyRound ((EFloat.fin qy).toRat - r.get_llur.2.1) := by
      apply pyRound_nonneg
      have hle : (r.get_llur.2.1 : ℚ) ≤ qy := le_of_not_lt hy1
      simp only [EFloat.toRat]
      linarith
    refine ⟨⟨hx0, hy0⟩, ?_, ?_⟩
    · intro hyin hxin
      unfold CenteringRegion.get_center_point_value
      rw [hpx, hpy, if_neg h, if_neg (by simp [hvb])]
      unfold npGet2 npIdx
      rw [if_pos ⟨hy0, hyin⟩, if_pos ⟨hx0, hxin⟩]
    · intro hor
      unfold CenteringRegion.get_center_point_value
      rw [hpx, hpy, if_neg h, if_neg (by simp [hvb])]
      unfold npGet2
      rcases hor with hory | horx
      · have hnone : npIdx (pyRound ((EFloat.fin qy).toRat - r.get_llur.2.1)) r.data.h
            = none := by
          unfold npIdx
          rw [if_neg (by omega), if_neg (by omega)]
        rw [hnone]
      · have hnone : npIdx (pyRound ((EFloat.fin qx).toRat - r.get_llur.1)) r.data.w
            = none := by
          unfold npIdx
          rw [if_neg (by omega), if_neg (by omega)]
        rw [hnone]
        rcases npIdx (pyRound ((EFloat.fin qy).toRat - r.get_llur.2.1)) r.data.h with - | -
        · rfl
        · rfl

/-- Witness for C3's amended theorem: on `rBox` with peak (100, 100) the
in-range read returns the stored sample 0; on `rBox` with an
out-of-bounds peak (200, 98) the re-validation raises the out-of-bounds
error. -/
theorem get_center_point_value_spec_witness :
    CenteringRegion.get_center_point_value rBox = .ok 0 ∧
    CenteringRegion.get_center_point_value
        { rBox with peak := ⟨.fin 200, .fin 98, 1⟩ } = .error .outOfBounds := by
  constructor
  · have h := ((get_center_point_value_spec rBox).2.2 (by decide) (by decide)).2.1
      (by decide) (by decide)
    rw [h]
    decide
  · exact (get_center_point_value_spec
      { rBox with peak := ⟨.fin 200, .fin 98, 1⟩ }).2.1 (by decide) (by decide)

/-- Counterexample to C3 as stated: on `rBox` the peak is validly placed
by `set_center_point` at (104, 100) — the inclusive upper edge of the
bounding box (97, 97, 104, 104).  Its rounded offset (7, 3) falls outside
the 7×7 cutout, yet `get_center_point_value` raises `IndexError`, not the
claimed out-of-bounds error. -/
theorem get_center_point_value_edge_cex :
    (CenteringRegion.set_center_point rBox (.fin 104) (.fin 100)).2 = .ok () ∧
    pyRound ((104 : ℚ) - 97) = 7 ∧
    (CenteringRegion.set_center_point rBox (.fin 104) (.fin 100)).1.data.w = 7 ∧
    CenteringRegion.get_center_point_value
        (CenteringRegion.set_center_point rBox (.fin 104) (.fin 100)).1
      = .error .indexError ∧
    (Except.error PyError.indexError : Except PyError ℚ) ≠ .error .outOfBounds := by
  decide

/-- C4: a box region created by `at_location` at (100.0, 100.0) with size
7×7 has rounded bounding box (97, 97, 104, 104); its cutout over `img0`
is 7×7 with the single bright pixel (value 10, all other samples 0) at
local offset (x, y) = (2, 1); and `centroid("peak")` returns (99, 98) in
absolute image coordinates. -/
theorem box_region_scenario :
    CenteringRegion.get_llur rBox = (97, 97, 104, 104) ∧
    rBox.data.h = 7 ∧ rBox.data.w = 7 ∧
    rBox.data.data 1 2 = 10 ∧
    ((List.range 7).all fun iy => (List.range 7).all fun ix =>
      (decide ¬(iy = 1 ∧ ix = 2)) → (rBox.data.data iy ix = 0 ∧ rBox.data.mask iy ix = false)) ∧
    (CenteringRegion.centroid nanFit rBox "peak").1 = .ok (.fin 99, .fin 98) := by
  decide

/-- Counterexample to C5 as stated: on the all-zero (degenerate) region
`rZero` whose peak was previously validated at (99, 99), selecting the
`"2D Gaussian"` method through `recenter_region` does surface an error
message, but the peak marker is moved to the region center (100, 100) and
hidden — it is not left unchanged at its prior position. -/
theorem gaussian_degenerate_moves_peak_cex :
    rZero.data.degenerate = true ∧
    sZero.region.peak.x = .fin 99 ∧ sZero.region.peak.y = .fin 99 ∧
    (Astrometry.recenter_region nanFit skyFail sZero "2D Gaussian").toOption.map
        (fun s => (s.region.peak.x, s.region.peak.y, s.region.peak.alpha,
                   s.center_x, s.center_value, s.errors_shown))
      = some (.fin 100, .fin 100, 0, none, none, 1) ∧
    (EFloat.fin 100 : EFloat) ≠ .fin 99 :=
  ⟨by decide, by decide, by decide, rfl, by decide⟩

/-- C5 (amended): for any Gaussian-fit implementation that reports a
non-finite center on degenerate cutouts, `recenter_region` with
`"2D Gaussian"` on a region whose cutout is degenerate (e.g. all zero)
does not propagate an exception: the non-finite centroid fails the
`set_center_point` validation, which is caught — the peak marker is
hidden and moved to the region center, the display fields are cleared,
and an error message is surfaced to the user.  The prior peak marker
position is not preserved. -/
theorem gaussian_degenerate_recovery_spec
    (fit : Cutout → EFloat × EFloat)
    (pixToSky : EFloat → EFloat → Except Unit (ℚ × ℚ))
    (s : AstrometryState)
    (hfit : ∀ c, c.degenerate = true → fit c = (.nan, .nan))
    (hdeg : s.region.data.degenerate = true) :
    (Astrometry.recenter_region fit pixToSky s "2D Gaussian").toOption.map
        (fun s' => (s'.region.peak.x, s'.region.peak.y, s'.region.peak.alpha,
                    s'.center_x, s'.center_y, s'.center_value, s'.center_ra,
                    s'.center_dec, s'.errors_shown, s'.region.shape, s'.region.data))
      = some (.fin s.region.get_center.1, .fin s.region.get_center.2, 0,
              none, none, none, none, none, s.errors_shown + 1,
              s.region.shape, s.region.data) := by
  have hfit' : fit s.region.data = (.nan, .nan) := hfit _ hdeg
  have hcent : CenteringRegion.centroid fit s.region "2D Gaussian"
      = (.ok (.nan, .nan), s.region) := by
    unfold CenteringRegion.centroid
    rw [if_neg (by decide), if_neg (by decide), if_pos rfl, hfit']
    rfl
  have hscp : CenteringRegion.set_center_point s.region .nan .nan
      = ({ s.region with
            peak := ⟨.fin s.region.get_center.1, .fin s.region.get_center.2, 0⟩ },
         .error .outOfBounds) := by
    unfold CenteringRegion.set_center_point
    rw [if_pos (by simp [CenteringRegion.invalidCoordinates, EFloat.isFinite])]
  have hstep : Astrometry.recenter_region fit pixToSky s "2D Gaussian"
      = Astrometry.move_region_peak pixToSky s .nan .nan := by
    unfold Astrometry.recenter_region
    rw [hcent]
  rw [hstep]
  unfold Astrometry.move_region_peak
  rw [hscp]
  rfl

/-- Witness for C5's amended theorem at the concrete state `sZero` with
the constant-NaN fit. -/
theorem gaussian_degenerate_recovery_spec_witness :
    (Astrometry.recenter_region nanFit skyFail sZero "2D Gaussian").toOption.map
        (fun s' => (s'.region.peak.x, s'.region.peak.y, s'.region.peak.alpha,
                    s'.center_x, s'.center_y, s'.center_value, s'.center_ra,
                    s'.center_dec, s'.errors_shown, s'.region.shape, s'.region.data))
      = some (.fin 100, .fin 100, 0, none, none, none, none, none, 1,
              rZero.shape, rZero.data) :=
  gaussian_degenerate_recovery_spec nanFit skyFail sZero (fun _ _ => rfl) (by decide)

theorem cutout_shape_dims (img : ImageData) (sh : Shape)
    (hin : bboxOutsideExtent img (roundedLlur sh).1 (roundedLlur sh).2.1
      (roundedLlur sh).2.2.1 (roundedLlur sh).2.2.2 = false) :
    (cutout_shape img sh).h = ((roundedLlur sh).2.2.2 - (roundedLlur sh).2.1).toNat ∧
    (cutout_shape img sh).w = ((roundedLlur sh).2.2.1 - (roundedLlur sh).1).toNat := by
  unfold cutout_shape
  rw [if_neg (by simp [hin])]
  exact ⟨rfl, rfl⟩

theorem cutout_shape_empty (img : ImageData) (sh : Shape)
    (hout : bboxOutsideExtent img (roundedLlur sh).1 (roundedLlur sh).2.1
      (roundedLlur sh).2.2.1 (roundedLlur sh).2.2.2 = true) :
    (cutout_shape img sh).size = 0 := by
  unfold cutout_shape
  rw [if_pos hout]
  rfl

/-- C7: after every `set_center(x, y)` the region's shape is centered at
`(x, y)`, the stored cutout equals a fresh extraction for the shape at
its new position (so no read within the region observes a stale cutout),
the peak marker is untouched, and the cutout dimensions agree with the
shape's current rounded bounding box (zero-size exactly when the box lies
entirely outside the image extent). -/
theorem set_center_reextracts (img : ImageData) (r : CenteringRegion) (x y : ℚ) :
    (CenteringRegion.set_center img r x y).shape = r.shape.move_to_pt x y ∧
    (CenteringRegion.set_center img r x y).shape.x = x ∧
    (CenteringRegion.set_center img r x y).shape.y = y ∧
    (CenteringRegion.set_center img r x y).data
      = cutout_shape img (CenteringRegion.set_center img r x y).shape ∧
    (CenteringRegion.set_center img r x y).peak = r.peak ∧
    (bboxOutsideExtent img (roundedLlur (r.shape.move_to_pt x y)).1
        (roundedLlur (r.shape.move_to_pt x y)).2.1
        (roundedLlur (r.shape.move_to_pt x y)).2.2.1
        (roundedLlur (r.shape.move_to_pt x y)).2.2.2 = false →
      (CenteringRegion.set_center img r x y).data.h
          = ((roundedLlur (r.shape.move_to_pt x y)).2.2.2
              - (roundedLlur (r.shape.move_to_pt x y)).2.1).toNat ∧
      (CenteringRegion.set_center img r x y).data.w
          = ((roundedLlur (r.shape.move_to_pt x y)).2.2.1
              - (roundedLlur (r.shape.move_to_pt x y)).1).toNat) ∧
    (bboxOutsideExtent img (roundedLlur (r.shape.move_to_pt x y)).1
        (roundedLlur (r.shape.move_to_pt x y)).2.1
        (roundedLlur (r.shape.move_to_pt x y)).2.2.1
        (roundedLlur (r.shape.move_to_pt x y)).2.2.2 = true →
      (CenteringRegion.set_center img r x y).data.size = 0) :=
  ⟨rfl, rfl, rfl, rfl, rfl,
   fun hin => cutout_shape_dims img (r.shape.move_to_pt x y) hin,
   fun hout => cutout_shape_empty img (r.shape.move_to_pt x y) hout⟩

/-- Witness for C7: moving `rBox` to (50, 60) re-extracts a 7×7 cutout
for the new bounding box. -/
theorem set_center_reextracts_witness :
    (CenteringRegion.set_center img0 rBox 50 60).shape.x = 50 ∧
    (CenteringRegion.set_center img0 rBox 50 60).data
      = cutout_shape img0 (CenteringRegion.set_center img0 rBox 50 60).shape ∧
    (CenteringRegion.set_center img0 rBox 50 60).data.h = 7 ∧
    (CenteringRegion.set_center img0 rBox 50 60).data.w = 7 := by
  obtain ⟨-, h1, -, h4, -, h6, -⟩ := set_center_reextracts img0 rBox 50 60
  obtain ⟨hh, hw⟩ := h6 (by decide)
  refine ⟨h1, h4, ?_, ?_⟩
  · rw [hh]
    decide
  · rw [hw]
    decide

theorem dlookup_nil {α : Type} (k : String) : dlookup k ([] : List (String × α)) = none := rfl

theorem dlookup_cons {α : Type} (k : String) (p : String × α) (t : List (String × α)) :
    dlookup k (p :: t) = if p.1 = k then some p.2 else dlookup k t := rfl

theorem dictKeys_nil {α : Type} : dictKeys ([] : List (String × α)) = [] := rfl

theorem dictKeys_cons {α : Type} (p : String × α) (t : List (String × α)) :
    dictKeys (p :: t) = p.1 :: dictKeys t := rfl

theorem dlookup_eq_none_of_not_mem {α : Type} {d : List (String × α)} {k : String}
    (h : k ∉ dictKeys d) : dlookup k d = none := by
  induction d with
  | nil => rfl
  | cons p t ih =>
      rw [dictKeys_cons, List.mem_cons] at h
      push_neg at h
      rw [dlookup_cons, if_neg (fun hc => h.1 hc.symm)]
      exact ih h.2

theorem dlookup_isSome_of_mem {α : Type} {d : List (String × α)} {k : String}
    (h : k ∈ dictKeys d) : (dlookup k d).isSome := by
  induction d with
  | nil => simp [dictKeys_nil] at h
  | cons p t ih =>
      rw [dictKeys_cons, List.mem_cons] at h
      rw [dlookup_cons]
      by_cases hp : p.1 = k
      · simp [if_pos hp]
      · rcases h with h | h
        · exact absurd h.symm hp
        · rw [if_neg hp]
          exact ih h

theorem dictKeys_map_replace {α : Type} (d : List (String × α)) (k : String) (v : α) :
    dictKeys (d.map fun p => if p.1 = k then (k, v) else p) = dictKeys d := by
  induction d with
  | nil => rfl
  | cons p t ih =>
      rw [List.map_cons, dictKeys_cons, dictKeys_cons, ih]
      by_cases hp : p.1 = k
      · rw [if_pos hp, hp]
      · rw [if_neg hp]

theorem dlookup_map_replace_self {α : Type} {d : List (String × α)} {k : String} (v : α)
    (hk : (dlookup k d).isSome) :
    dlookup k (d.map fun p => if p.1 = k then (k, v) else p) = some v := by
  induction d with
  | nil => simp [dlookup_nil] at hk
  | cons p t ih =>
      rw [List.map_cons]
      by_cases hp : p.1 = k
      · rw [if_pos hp, dlookup_cons, if_pos rfl]
      · rw [dlookup_cons, if_neg hp] at hk
        rw [if_neg hp, dlookup_cons, if_neg hp]
        exact ih hk

theorem dlookup_map_replace_other {α : Type} (d : List (String × α)) (k : String) (v : α)
    {l : String} (hne : l ≠ k) :
    dlookup l (d.map fun p => if p.1 = k then (k, v) else p) = dlookup l d := by
  induction d with
  | nil => rfl
  | cons p t ih =>
      rw [List.map_cons]
      by_cases hp : p.1 = k
      · have hkl : ¬k = l := fun hc => hne hc.symm
        have hpl : ¬p.1 = l := hp ▸ hkl
        rw [if_pos hp, dlookup_cons, dlookup_cons]
        show (if k = l then some v else _) = _
        rw [if_neg hkl, if_neg hpl]
        exact ih
      · rw [if_neg hp, dlookup_cons, dlookup_cons]
        by_cases hpl : p.1 = l
        · rw [if_pos hpl, if_pos hpl]
        · rw [if_neg hpl, if_neg hpl]
          exact ih

theorem dlookup_append_single_self {α : Type} {d : List (String × α)} {k : String} (v : α)
    (hk : dlookup k d = none) : dlookup k (d ++ [(k, v)]) = some v := by
  induction d with
  | nil => simp [dlookup_cons]
  | cons p t ih =>
      rw [dlookup_cons] at hk
      by_cases hp : p.1 = k
      · rw [if_pos hp] at hk
        exact absurd hk (by simp)
      · rw [if_neg hp] at hk
        rw [List.cons_append, dlookup_cons, if_neg hp]
        exact ih hk

theorem dlookup_append_single_other {α : Type} (d : List (String × α)) (k : String) (v : α)
    {l : String} (hne : l ≠ k) : dlookup l (d ++ [(k, v)]) = dlookup l d := by
  induction d with
  | nil =>
      rw [List.nil_append, dlookup_cons, dlookup_nil, if_neg (fun hc => hne hc.symm)]
  | cons p t ih =>
      rw [List.cons_append, dlookup_cons, dlookup_cons]
      by_cases hp : p.1 = l
      · rw [if_pos hp, if_pos hp]
      · rw [if_neg hp, if_neg hp]
        exact ih

theorem dlookup_dictInsert_self {α : Type} (d : List (String × α)) (k : String) (v : α) :
    dlookup k (dictInsert d k v) = some v := by
  unfold dictInsert
  split
  · exact dlookup_map_replace_self v (by assumption)
  · exact dlookup_append_single_self v (Option.not_isSome_iff_eq_none.mp (by assumption))

theorem dlookup_dictInsert_other {α : Type} (d : List (String × α)) (k : String) (v : α)
    {l : String} (hne : l ≠ k) : dlookup l (dictInsert d k v) = dlookup l d := by
  unfold dictInsert
  split
  · exact dlookup_map_replace_other d k v hne
  · exact dlookup_append_single_other d k v hne

theorem nodup_dictInsert {α : Type} (d : List (String × α)) (k : String) (v : α)
    (hd : (dictKeys d).Nodup) : (dictKeys (dictInsert d k v)).Nodup := by
  unfold dictInsert
  split
  · rw [dictKeys_map_replace]
    exact hd
  · rename_i hk
    have hkeys : dictKeys (d ++ [(k, v)]) = dictKeys d ++ [k] := by
      simp [dictKeys]
    rw [hkeys, List.nodup_append]
    refine ⟨hd, List.nodup_singleton k, ?_⟩
    intro a ha hb
    rw [List.mem_singleton] at hb
    subst hb
    exact hk (dlookup_isSome_of_mem ha)

theorem dictUpdate_cons {α : Type} (d : List (String × α)) (p : String × α)
    (t : List (String × α)) :
    dictUpdate d (p :: t) = dictUpdate (dictInsert d p.1 p.2) t := rfl

theorem dlookup_dictUpdate_none {α : Type} :
    ∀ (res d : List (String × α)) (k : String), dlookup k res = none →
      dlookup k (dictUpdate d res) = dlookup k d := by
  intro res
  induction res with
  | nil =>
      intro d k _
      rfl
  | cons p t ih =>
      intro d k hk
      simp only [dlookup] at hk
      by_cases hp : p.1 = k
      · rw [if_pos hp] at hk
        exact absurd hk (by simp)
      · rw [if_neg hp] at hk
        rw [dictUpdate_cons, ih _ _ hk, dlookup_dictInsert_other _ _ _ (fun hc => hp hc.symm)]

theorem dlookup_dictUpdate_some {α : Type} :
    ∀ (res d : List (String × α)), (dictKeys res).Nodup →
      ∀ (k : String) (v : α), dlookup k res = some v →
        dlookup k (dictUpdate d res) = some v := by
  intro res
  induction res with
  | nil =>
      intro d _ k v hk
      exact absurd hk (by simp [dlookup])
  | cons p t ih =>
      intro d hres k v hk
      simp only [dictKeys, List.map_cons, List.nodup_cons] at hres
      simp only [dlookup] at hk
      by_cases hp : p.1 = k
      · rw [if_pos hp] at hk
        have htn : dlookup k t = none :=
          dlookup_eq_none_of_not_mem (by
            rw [← hp]
            exact hres.1)
        rw [dictUpdate_cons, dlookup_dictUpdate_none t _ k htn, hp,
          dlookup_dictInsert_self]
        exact congrArg some (Option.some_injective _ hk).symm ▸ hk ▸ rfl
      · rw [if_neg hp] at hk
        rw [dictUpdate_cons]
        exact ih _ hres.2 k v hk

theorem nodup_dictUpdate {α : Type} :
    ∀ (res d : List (String × α)), (dictKeys d).Nodup →
      (dictKeys (dictUpdate d res)).Nodup := by
  intro res
  induction res with
  | nil =>
      intro d hd
      exact hd
  | cons p t ih =>
      intro d hd
      rw [dictUpdate_cons]
      exact ih _ (nodup_dictInsert d p.1 p.2 hd)

/-- Concrete report tables for exercising `AstrometricReport.update`. -/
def rowOld : ReportRow := [("name", "img1"), ("x", "10.000"), ("ra", "1.0"), ("dec", "2.0")]

/-- An updated row for the key already present in `reportW`. -/
def rowNew : ReportRow := [("name", "img1"), ("x", "11.000"), ("ra", "1.5"), ("dec", "2.5")]

/-- A row under a fresh key. -/
def rowOther : ReportRow := [("name", "img2"), ("x", "20.000"), ("ra", "3.0"), ("dec", "4.0")]

/-- A two-row report table keyed by image name. -/
def reportW : List (String × ReportRow) := [("img1", rowOld), ("img0", rowOther)]

/-- An update batch: overwrites key `"img1"`, adds fresh key `"img2"`. -/
def resultsW : List (String × ReportRow) := [("img1", rowNew), ("img2", rowOther)]

/-- C8: `AstrometricReport.update` keeps row keys unique; a key present in
the update batch ends up mapped to the batch's row (last-write-wins), and
a key absent from the batch keeps exactly its previous row (fresh keys
are added, all other rows are left unchanged). -/
theorem report_update_spec (report results : List (String × ReportRow))
    (hrep : (dictKeys report).Nodup) (hres : (dictKeys results).Nodup) (k : String) :
    (dictKeys (AstrometricReport.update report results)).Nodup ∧
    (∀ v, dlookup k results = some v →
      dlookup k (AstrometricReport.update report results) = some v) ∧
    (dlookup k results = none →
      dlookup k (AstrometricReport.update report results) = dlookup k report) := by
  refine ⟨nodup_dictUpdate results report hrep, ?_, ?_⟩
  · intro v hv
    exact dlookup_dictUpdate_some results report hres k v hv
  · intro hv
    exact dlookup_dictUpdate_none results report k hv

/-- Witness for C8 on concrete tables: key `"img1"` is overwritten by the
batch row, fresh key `"img2"` is added, and untouched key `"img0"` keeps
its old row; keys stay unique. -/
theorem report_update_spec_witness :
    (dictKeys (AstrometricReport.update reportW resultsW)).Nodup ∧
    dlookup "img1" (AstrometricReport.update reportW resultsW) = some rowNew ∧
    dlookup "img2" (AstrometricReport.update reportW resultsW) = some rowOther ∧
    dlookup "img0" (AstrometricReport.update reportW resultsW) = dlookup "img0" reportW := by
  refine ⟨(report_update_spec reportW resultsW (by decide) (by decide) "img1").1,
    (report_update_spec reportW resultsW (by decide) (by decide) "img1").2.1
      rowNew (by decide),
    (report_update_spec reportW resultsW (by decide) (by decide) "img2").2.1
      rowOther (by decide),
    (report_update_spec reportW resultsW (by decide) (by decide) "img0").2.2 (by decide)⟩

/-- C10: `AstrometricReport.save` on a report with no rows raises an
error (the `"ra"` column lookup on the empty table fails) before anything
is written; `save` can succeed only when at least one row is present. -/
theorem report_save_empty_spec (report : List (String × ReportRow)) :
    (report = [] → AstrometricReport.save report = .error .keyError) ∧
    (∀ t, AstrometricReport.save report = .ok t → report ≠ []) := by
  constructor
  · intro h
    subst h
    rfl
  · intro t hok hnil
    subst hnil
    exact Except.noConfusion hok

/-- Witness for C10: saving the empty report fails with the column
`KeyError`. -/
theorem report_save_empty_spec_witness :
    AstrometricReport.save ([] : List (String × ReportRow)) = .error .keyError :=
  (report_save_empty_spec []).1 rfl

